import Mathlib

/-!
Shallow embedding of the terraform-provider-aerospike reconciliation logic
(internal/provider and the unnamed source parts): Terraform attribute values,
Aerospike privileges, and the CRUD handlers of the user / role /
namespace-config resources, together with theorems about the grant/revoke
diff computation, error handling, the info-command error marker scan, the
capability probe and the privilege string round-trip.

Conventions of the embedding:
* the framework type `types.String` is `TFString := Option String`
  (`none` = null); `ValueString` of a null value is `""` as in the framework;
  `types.Int64` is `TFInt64 := Option Int`;
* Go maps appearing in info-command responses are association lists
  `List (String × String)` in the (arbitrary) iteration order of the Go map;
* Aerospike client calls issued by a handler are recorded as `AdminCall`
  values; the server's answer to a call is passed in as an explicit argument
  (an `Option Nat` holding the `astypes` result code of the error, `none` =
  success);
* `panic(err)` in a handler is the `panicked` constructor of the outcome
  type of that handler.
-/

/-- Terraform `types.String`: a string value or null. -/
abbrev TFString : Type := Option String

/-- Model of the framework constructor `types.StringValue`. -/
def TFString.value (s : String) : TFString := some s

/-- Model of the framework constructor `types.StringNull`. -/
def TFString.null : TFString := none

/-- Model of `ValueString()`: the value, or `""` for a null string. -/
def TFString.valueString : TFString → String
  | some s => s
  | none => ""

/-- Model of `IsNull()`. -/
def TFString.isNull : TFString → Bool
  | some _ => false
  | none => true

/-- Terraform `types.Int64`: an integer value or null. -/
abbrev TFInt64 : Type := Option Int

/-- Model of `ValueInt64()`: the value, or `0` for a null. -/
def TFInt64.valueInt64 (v : TFInt64) : Int := v.getD 0

/-- Go conversion `uint32(v)` of an int64 (two's-complement wrap). -/
def uint32OfInt64 (v : Int) : Nat := (v % (2 ^ 32)).toNat

/-- Aerospike client `as.Privilege` (client v7: `Code` is a string-typed
`privilegeCode`, plus `Namespace` and `SetName`). -/
structure ASPrivilege where
  Code : String
  Namespace : String
  SetName : String
deriving DecidableEq

/-- Client constant `as.UserAdmin`. -/
def ASPriv.UserAdmin : String := "user-admin"
/-- Client constant `as.SysAdmin`. -/
def ASPriv.SysAdmin : String := "sys-admin"
/-- Client constant `as.DataAdmin`. -/
def ASPriv.DataAdmin : String := "data-admin"
/-- Client constant `as.UDFAdmin`. -/
def ASPriv.UDFAdmin : String := "udf-admin"
/-- Client constant `as.SIndexAdmin`. -/
def ASPriv.SIndexAdmin : String := "sindex-admin"
/-- Client constant `as.ReadWriteUDF`. -/
def ASPriv.ReadWriteUDF : String := "read-write-udf"
/-- Client constant `as.Read`. -/
def ASPriv.Read : String := "read"
/-- Client constant `as.Write`. -/
def ASPriv.Write : String := "write"
/-- Client constant `as.ReadWrite`. -/
def ASPriv.ReadWrite : String := "read-write"
/-- Client constant `as.Truncate`. -/
def ASPriv.Truncate : String := "truncate"

/-- Source struct `AerospikeRolePrivilegeModel`
(resource_aerospike_namespace_config.go:458): one element of the `privileges`
set attribute. -/
structure AerospikeRolePrivilegeModel where
  Privilege : TFString
  Namespace : TFString
  Set : TFString
deriving DecidableEq

/-- Source function `asPrivFromStringValues`
(resource_aerospike_namespace_config.go:840): switch on the privilege name;
the zero `as.Privilege{}` is returned for a name outside the enumeration
(the Go switch has no `default` case). -/
def asPrivFromStringValues (priv nspace set : TFString) : ASPrivilege :=
  let n := nspace.valueString
  let s := set.valueString
  match priv.valueString with
  | "user-admin" => ⟨ASPriv.UserAdmin, n, s⟩
  | "sys-admin" => ⟨ASPriv.SysAdmin, n, s⟩
  | "data-admin" => ⟨ASPriv.DataAdmin, n, s⟩
  | "udf-admin" => ⟨ASPriv.UDFAdmin, n, s⟩
  | "sindex-admin" => ⟨ASPriv.SIndexAdmin, n, s⟩
  | "read-write-udf" => ⟨ASPriv.ReadWriteUDF, n, s⟩
  | "read" => ⟨ASPriv.Read, n, s⟩
  | "write" => ⟨ASPriv.Write, n, s⟩
  | "read-write" => ⟨ASPriv.ReadWrite, n, s⟩
  | "truncate" => ⟨ASPriv.Truncate, n, s⟩
  | _ => ⟨"", "", ""⟩

/-- Source function `asPrivToStringValues`
(resource_aerospike_namespace_config.go:870): the privilege code back to its
string name (`""` for an unknown code, the zero value of `var code string`);
an empty namespace or set becomes a null value. -/
def asPrivToStringValues (priv : ASPrivilege) : TFString × TFString × TFString :=
  let code : String :=
    match priv.Code with
    | "user-admin" => "user-admin"
    | "sys-admin" => "sys-admin"
    | "data-admin" => "data-admin"
    | "udf-admin" => "udf-admin"
    | "sindex-admin" => "sindex-admin"
    | "read-write-udf" => "read-write-udf"
    | "read" => "read"
    | "write" => "write"
    | "read-write" => "read-write"
    | "truncate" => "truncate"
    | _ => ""
  let nspace : TFString := if priv.Namespace = "" then TFString.null else TFString.value priv.Namespace
  let set : TFString := if priv.SetName = "" then TFString.null else TFString.value priv.SetName
  (TFString.value code, nspace, set)

/-- List of the ten privilege names accepted by the schema validator
`stringvalidator.OneOf` on the `privilege` attribute. -/
def privilegeNames : List String :=
  ["user-admin", "sys-admin", "data-admin", "udf-admin", "sindex-admin",
   "read-write-udf", "read-write", "read", "write", "truncate"]

/-- Admin-protocol call issued by a reconciler (client SDK calls `CreateRole`,
`GrantPrivileges`, …, `CreateUser`, `ChangePassword`, …). -/
inductive AdminCall where
  | CreateRole (role : String) (privs : List ASPrivilege) (whitelist : List String)
      (readQuota writeQuota : Nat)
  | GrantPrivileges (role : String) (privs : List ASPrivilege)
  | RevokePrivileges (role : String) (privs : List ASPrivilege)
  | SetWhitelist (role : String) (whitelist : List String)
  | SetQuotas (role : String) (readQuota writeQuota : Nat)
  | DropRole (role : String)
  | CreateUser (user password : String) (roles : List String)
  | ChangePassword (user password : String)
  | GrantRoles (user : String) (roles : List String)
  | RevokeRoles (user : String) (roles : List String)
  | DropUser (user : String)
deriving DecidableEq

/-- Source struct `AerospikeUserModel` (resource_aerospike_user.go:38). -/
structure AerospikeUserModel where
  User_name : TFString
  Password : TFString
  Roles : List TFString
deriving DecidableEq

/-- Go `sort.Strings`: sort a string slice ascending. -/
def sortStrings (l : List String) : List String := l.mergeSort

/-- Model of `sliceutil.IntersectStrings` of the go-stockutil library (a
dependency, not part of this repository): the elements of the first slice
that also appear in the second. -/
def intersectStrings (a b : List String) : List String := a.filter (fun x => b.contains x)

/-- Model of `sliceutil.Stringify (sliceutil.Difference a b)` of the
go-stockutil library (a dependency, not part of this repository): the
elements of the first slice that do not appear in the second. -/
def differenceStrings (a b : List String) : List String := a.filter (fun x => !(b.contains x))

/-- Source method `AerospikeUser.Update` (resource_aerospike_user.go:162):
change the password when the planned value differs, then sort the planned and
prior role lists and, when the sorted lists differ (`reflect.DeepEqual`),
grant the planned-minus-intersection roles and revoke the
prior-minus-intersection roles, each call only when its list is non-empty.
Returns the issued calls and the model written to state (the Go `data`). -/
def AerospikeUser.Update (plan state : AerospikeUserModel) :
    List AdminCall × AerospikeUserModel :=
  let userName := plan.User_name.valueString
  let pwCalls : List AdminCall :=
    if plan.Password ≠ state.Password then
      [AdminCall.ChangePassword userName plan.Password.valueString]
    else []
  let planRoles := sortStrings (plan.Roles.map TFString.valueString)
  let stateRoles := sortStrings (state.Roles.map TFString.valueString)
  if planRoles ≠ stateRoles then
    let intersection := intersectStrings stateRoles planRoles
    let rolesToAdd := differenceStrings planRoles intersection
    let rolesToRevoke := differenceStrings stateRoles intersection
    let roleCalls : List AdminCall :=
      (if rolesToAdd ≠ [] then [AdminCall.GrantRoles userName rolesToAdd] else []) ++
      (if rolesToRevoke ≠ [] then [AdminCall.RevokeRoles userName rolesToRevoke] else [])
    (pwCalls ++ roleCalls, ⟨plan.User_name, plan.Password, plan.Roles⟩)
  else
    (pwCalls, ⟨plan.User_name, plan.Password, state.Roles⟩)

/-- Source struct `AerospikeRoleModel`
(resource_aerospike_namespace_config.go:450).  The `privileges` set attribute
is modelled by its element list (the attribute is `Required`, so never null in
a plan). -/
structure AerospikeRoleModel where
  Role_name : TFString
  Privileges : List AerospikeRolePrivilegeModel
  White_list : List TFString
  Read_quota : TFInt64
  Write_quota : TFInt64
deriving DecidableEq

/-- Model of a `diag.NewErrorDiagnostic(summary, detail)` appended to
`resp.Diagnostics`. -/
structure ErrorDiagnostic where
  summary : String
  detail : String
deriving DecidableEq

/-- Cluster as the reconciler observes it: which namespaces exist
(`namespaceExists`, a dummy-key `Get` whose `INVALID_NAMESPACE` error code
marks a missing namespace) and whether role quotas are enabled (a server with
quotas disabled answers `SetQuotas` and `CreateRole` with
`QUOTAS_NOT_ENABLED`). -/
structure ClusterEnv where
  nsExists : String → Bool
  quotasEnabled : Bool

/-- Planned-privileges loop of `AerospikeRole.Update`
(resource_aerospike_namespace_config.go:716) and of `AerospikeRole.Create`:
each element whose namespace is non-null must name an existing namespace,
otherwise the loop aborts with the "Invalid namesace" [sic] diagnostic; each
validated element is converted with `asPrivFromStringValues`. -/
def validatePlanPrivileges (env : ClusterEnv) :
    List AerospikeRolePrivilegeModel → Except ErrorDiagnostic (List ASPrivilege)
  | [] => .ok []
  | p :: rest =>
    if !p.Namespace.isNull && !env.nsExists p.Namespace.valueString then
      .error ⟨"Invalid namesace",
        "Namespace \"" ++ p.Namespace.valueString ++
          "\" does not exist in the cluster. Can't create role referencing it"⟩
    else
      match validatePlanPrivileges env rest with
      | .error d => .error d
      | .ok l => .ok (asPrivFromStringValues p.Privilege p.Namespace p.Set :: l)

/-- Result of a role Update: the admin calls issued (in order), the error
diagnostic of an early return (if any), and the model written to state
(`none` when the handler returned before `resp.State.Set`). -/
structure RoleUpdateResult where
  calls : List AdminCall
  diags : Option ErrorDiagnostic
  newData : Option AerospikeRoleModel
deriving DecidableEq

/-- Source method `AerospikeRole.Update`
(resource_aerospike_namespace_config.go:690): privilege diff (skipped when
plan and state privilege sets are `reflect.DeepEqual`), namespace validation
of every planned privilege, grant and revoke calls each only when its diff is
non-empty, wholesale whitelist replacement on change, wholesale quota
replacement on change with a "Quotas not enabled" diagnostic when the server
rejects quotas.  Grant / revoke / whitelist client errors panic in the source
and are modelled as successes here: every theorem below quantifies over runs
in which those calls succeed. -/
def AerospikeRole.Update (env : ClusterEnv) (plan state : AerospikeRoleModel) :
    RoleUpdateResult :=
  let roleName := plan.Role_name.valueString
  let privSection : Except ErrorDiagnostic (List AdminCall) :=
    if plan.Privileges = state.Privileges then .ok []
    else
      match validatePlanPrivileges env plan.Privileges with
      | .error d => .error d
      | .ok planASPrivileges =>
        let stateASPrivileges := state.Privileges.map
          (fun p => asPrivFromStringValues p.Privilege p.Namespace p.Set)
        let privsToAdd := planASPrivileges.filter (fun p => !(stateASPrivileges.contains p))
        let privsToRevoke := stateASPrivileges.filter (fun p => !(planASPrivileges.contains p))
        .ok ((if privsToAdd ≠ [] then [AdminCall.GrantPrivileges roleName privsToAdd] else []) ++
             (if privsToRevoke ≠ [] then [AdminCall.RevokePrivileges roleName privsToRevoke] else []))
  match privSection with
  | .error d => ⟨[], some d, none⟩
  | .ok privCalls =>
    let wlCalls : List AdminCall :=
      if plan.White_list ≠ state.White_list then
        [AdminCall.SetWhitelist roleName (plan.White_list.map TFString.valueString)]
      else []
    let newData : AerospikeRoleModel :=
      ⟨plan.Role_name, plan.Privileges, plan.White_list, plan.Read_quota, plan.Write_quota⟩
    if plan.Read_quota ≠ state.Read_quota ∨ plan.Write_quota ≠ state.Write_quota then
      let qCalls : List AdminCall :=
        [AdminCall.SetQuotas roleName (uint32OfInt64 plan.Read_quota.valueInt64)
          (uint32OfInt64 plan.Write_quota.valueInt64)]
      if env.quotasEnabled then
        ⟨privCalls ++ wlCalls ++ qCalls, none, some newData⟩
      else
        ⟨privCalls ++ wlCalls ++ qCalls,
          some ⟨"Quotas not enabled", "Role quotas are requests but not enabled in the server"⟩,
          none⟩
    else
      ⟨privCalls ++ wlCalls, none, some newData⟩

/-- Conversion of a role model's privilege elements to client privileges: the
`planASPrivileges` / `stateASPrivileges` mapping loops of
`AerospikeRole.Update`. -/
def asPrivilegesOfModel (m : AerospikeRoleModel) : List ASPrivilege :=
  m.Privileges.map (fun p => asPrivFromStringValues p.Privilege p.Namespace p.Set)

/-- Aerospike client result code `astypes.INVALID_NAMESPACE`. -/
def astypes.INVALID_NAMESPACE : Nat := 20
/-- Aerospike client result code `astypes.INVALID_USER`. -/
def astypes.INVALID_USER : Nat := 60
/-- Aerospike client result code `astypes.USER_ALREADY_EXISTS`. -/
def astypes.USER_ALREADY_EXISTS : Nat := 61
/-- Aerospike client result code `astypes.INVALID_ROLE`. -/
def astypes.INVALID_ROLE : Nat := 70
/-- Aerospike client result code `astypes.ROLE_ALREADY_EXISTS`. -/
def astypes.ROLE_ALREADY_EXISTS : Nat := 71
/-- Aerospike client result code `astypes.QUOTAS_NOT_ENABLED`. -/
def astypes.QUOTAS_NOT_ENABLED : Nat := 74

/-- Client `Role` value answered by `QueryRole`. -/
structure ASRole where
  Name : String
  Privileges : List ASPrivilege
  Whitelist : List String
  ReadQuota : Nat
  WriteQuota : Nat
deriving DecidableEq

/-- Outcome of a Read handler: `panicked` (`panic(err)` on an unexpected
result code), `absent` (the server reported the object as invalid /
nonexistent, local state is cleared to nulls or the resource removed, no
error reported), or `ok` with the reconstructed model written to state. -/
inductive ReadOutcome (α : Type) where
  | panicked (code : Nat)
  | absent
  | ok (newData : α)
deriving DecidableEq

/-- Outcome of a Delete handler. -/
inductive DeleteOutcome where
  | panicked (code : Nat)
  | success
deriving DecidableEq

/-- Source method `AerospikeRole.Read` (resource_aerospike_role.go:196): an
`INVALID_ROLE` answer clears the state to nulls and returns without error;
any other error code panics; a successful answer reconstructs privileges (via
`asPrivToStringValues`), whitelist and quotas.  The model conflates the null
set/list written for an empty privilege list or whitelist with the empty
list. -/
def AerospikeRole.Read (data : AerospikeRoleModel) (resp : Except Nat ASRole) :
    ReadOutcome AerospikeRoleModel :=
  match resp with
  | .error c => if c = astypes.INVALID_ROLE then .absent else .panicked c
  | .ok role =>
    let privs : List AerospikeRolePrivilegeModel :=
      role.Privileges.map (fun p =>
        let t := asPrivToStringValues p
        ⟨t.1, t.2.1, t.2.2⟩)
    .ok ⟨data.Role_name, privs, role.Whitelist.map TFString.value,
      some (Int.ofNat role.ReadQuota), some (Int.ofNat role.WriteQuota)⟩

/-- Source method `AerospikeUser.Read` (resource_aerospike_user.go:124): an
`INVALID_USER` answer removes the resource from state (`RemoveResource`)
without error; any other error code panics; a successful answer keeps the
queried roles, except that a role list whose first element is `""` is
normalized to no roles (server quirk). -/
def AerospikeUser.Read (data : AerospikeUserModel) (resp : Except Nat (List String)) :
    ReadOutcome AerospikeUserModel :=
  match resp with
  | .error c => if c = astypes.INVALID_USER then .absent else .panicked c
  | .ok roles =>
    let newRoles : List TFString :=
      match roles with
      | [] => []
      | r0 :: _ => if r0 = "" then [] else roles.map TFString.value
    .ok ⟨data.User_name, data.Password, newRoles⟩

/-- Source method `AerospikeRole.Delete` (resource_aerospike_role.go:280):
`DropRole` is issued; an `INVALID_ROLE` answer is idempotent success; any
other error code panics. -/
def AerospikeRole.Delete (dropErr : Option Nat) : DeleteOutcome :=
  match dropErr with
  | none => .success
  | some c => if c = astypes.INVALID_ROLE then .success else .panicked c

/-- Source method `AerospikeUser.Delete` (resource_aerospike_user.go:229):
`DropUser` is issued; an `INVALID_USER` answer is idempotent success; any
other error code panics. -/
def AerospikeUser.Delete (dropErr : Option Nat) : DeleteOutcome :=
  match dropErr with
  | none => .success
  | some c => if c = astypes.INVALID_USER then .success else .panicked c

/-- Outcome of a Create handler: an error diagnostic appended to
`resp.Diagnostics`, a `panic(err)`, or success. -/
inductive CreateOutcome where
  | diag (summary detail : String)
  | panicked (code : Nat)
  | ok
deriving DecidableEq

/-- Source method `AerospikeRole.Create`
(resource_aerospike_namespace_config.go:556): validates every planned
privilege's namespace, then issues `CreateRole`; the server's answer is
mapped: `QUOTAS_NOT_ENABLED` and `ROLE_ALREADY_EXISTS` each get their own
diagnostic, anything else panics. -/
def AerospikeRole.Create (env : ClusterEnv) (data : AerospikeRoleModel)
    (createErr : Option Nat) : List AdminCall × CreateOutcome :=
  match validatePlanPrivileges env data.Privileges with
  | .error d => ([], .diag d.summary d.detail)
  | .ok privileges =>
    let roleName := data.Role_name.valueString
    ([AdminCall.CreateRole roleName privileges (data.White_list.map TFString.valueString)
        (uint32OfInt64 data.Read_quota.valueInt64) (uint32OfInt64 data.Write_quota.valueInt64)],
      match createErr with
      | none => .ok
      | some c =>
        if c = astypes.QUOTAS_NOT_ENABLED then
          .diag "Quotas not enabled" "Role quotas are requests but not enabled in the server"
        else if c = astypes.ROLE_ALREADY_EXISTS then
          .diag "Role already exists" ("Role that was being created already exists: " ++ roleName)
        else .panicked c)

/-- Source method `AerospikeUser.Create` (resource_aerospike_user.go:95):
issues `CreateUser`; every server error panics — there is no distinct
handling of `USER_ALREADY_EXISTS`. -/
def AerospikeUser.Create (data : AerospikeUserModel) (createErr : Option Nat) :
    List AdminCall × CreateOutcome :=
  ([AdminCall.CreateUser data.User_name.valueString data.Password.valueString
      (data.Roles.map TFString.valueString)],
    match createErr with
    | none => .ok
    | some c => .panicked c)

/-- Helper: whether the second character list starts with the first. -/
def charsStartWith : List Char → List Char → Bool
  | [], _ => true
  | _ :: _, [] => false
  | a :: as, b :: bs => a == b && charsStartWith as bs

/-- Helper: whether the second character list has the first as a contiguous
run. -/
def charsContain (ndl : List Char) : List Char → Bool
  | [] => ndl.isEmpty
  | b :: bs => charsStartWith ndl (b :: bs) || charsContain ndl bs

/-- Go `strings.Contains(s, substr)`. -/
def strContains (s substr : String) : Bool := charsContain substr.toList s.toList

/-- Source function `sendInfoCommand` (src/unnamed/part_003:28), after node
selection and `RequestInfo`: the response map (association list, in the
iteration order of the Go map) is scanned and any value containing the
literal `"ERROR"` overwrites `err` with an error naming that sub-command and
value; the map and the final `err` are returned.  `reqErr` is the error
`RequestInfo` itself returned (`none` = success). -/
def sendInfoCommand (requestRetVal : List (String × String)) (reqErr : Option String) :
    List (String × String) × Option String :=
  (requestRetVal,
    requestRetVal.foldl
      (fun e p =>
        if strContains p.2 "ERROR" then
          some ("Error in request: " ++ p.1 ++ " error was: " ++ p.2)
        else e)
      reqErr)

/-- Source constant `SetLevelTTL asCapabilities = 7` (src/unnamed/part_003:17). -/
def SetLevelTTL : Nat := 7

/-- Model of `strconv.Atoi` applied to a one-character string (the `[0:1]`
slice): a digit parses to its value, anything else is an error (a panic in
the caller). -/
def charDigit? (c : Char) : Option Nat :=
  if c.isDigit then some (c.toNat - 48) else none

/-- Outcome of `supportsCapability`: the error of a failed `sendInfoCommand`
(returned as `(false, err)`), a panic (`Atoi` failure, or the `[0:1]` slice
of an empty build string), or the boolean answer. -/
inductive CapOutcome where
  | errored (msg : String)
  | panicked
  | result (b : Bool)
deriving DecidableEq

/-- Source function `supportsCapability` (src/unnamed/part_003:50, identical
logic in internal/provider/utils_as.go:37): sends `build`, takes
`serverBuild["build"]` (`""` when the key is missing, the Go map zero value),
slices the first character only (`[0:1]`), parses it with `strconv.Atoi` as
the server major version, and compares it against the capability's minimum
(7 for `SetLevelTTL`); an unknown capability yields `false`. -/
def supportsCapability (sendResult : List (String × String) × Option String)
    (capability : Nat) : CapOutcome :=
  match sendResult.2 with
  | some e => .errored e
  | none =>
    let build := ((sendResult.1.find? (fun p => p.1 == "build")).map Prod.snd).getD ""
    match build.toList with
    | [] => .panicked
    | c :: _ =>
      match charDigit? c with
      | none => .panicked
      | some v =>
        if capability = SetLevelTTL then .result (decide (v ≥ SetLevelTTL))
        else .result false

/-- Source struct `AerospikeNamespaceConfigModel`
(resource_aerospike_namespace_config.go:45).  The `default_set_ttl` map
attribute is `none` when null, otherwise its (set → TTL) entries. -/
structure AerospikeNamespaceConfigModel where
  Namespace : TFString
  Default_set_ttl : Option (List (String × String))
  XDR_include : List TFString
  XDR_exclude : List TFString
  Migartion_threads : TFInt64
deriving DecidableEq

/-- Default-set-TTL section of `AerospikeNamespaceConfig.Create`
(resource_aerospike_namespace_config.go:119-151) in the observed revision:
when `default_set_ttl` is non-null, an auxiliary go map `ttlMap` is allocated
(sized by the declared map) but never populated, and the loop issuing
`set-config` info commands ranges over `ttlMap`.  Returns the info-command
strings issued. -/
def AerospikeNamespaceConfig.Create (data : AerospikeNamespaceConfigModel) : List String :=
  match data.Default_set_ttl with
  | none => []
  | some _ =>
    let ttlMap : List (String × String) := []
    ttlMap.map (fun p =>
      "set-config:context=namespace;id=" ++ data.Namespace.valueString ++ ";set=" ++ p.1 ++
        ";default-ttl=" ++ p.2)

/-- C9: converting a declared (kind, namespace, set) triple with
`asPrivFromStringValues` and converting back with `asPrivToStringValues`
reproduces the identical triple, whenever the kind is in the schema
enumeration and the namespace and set are non-empty strings — so a Create
followed by a Read reconstructs the declared privilege exactly. -/
theorem asPriv_roundTrip (c n s : String) (hc : c ∈ privilegeNames)
    (hn : n ≠ "") (hs : s ≠ "") :
    asPrivToStringValues (asPrivFromStringValues (TFString.value c) (TFString.value n) (TFString.value s)) =
      (TFString.value c, TFString.value n, TFString.value s) := by
  simp only [privilegeNames, List.mem_cons, List.mem_singleton, List.not_mem_nil, or_false] at hc
  rcases hc with rfl | rfl | rfl | rfl | rfl | rfl | rfl | rfl | rfl | rfl <;>
    simp [asPrivFromStringValues, asPrivToStringValues, TFString.value, TFString.valueString,
      TFString.null, ASPriv.UserAdmin, ASPriv.SysAdmin, ASPriv.DataAdmin, ASPriv.UDFAdmin,
      ASPriv.SIndexAdmin, ASPriv.ReadWriteUDF, ASPriv.Read, ASPriv.Write, ASPriv.ReadWrite,
      ASPriv.Truncate, hn, hs]

/-- Witness for `asPriv_roundTrip` at the spec's concrete example
(read @ namespace aerospike, set test). -/
theorem asPriv_roundTrip_witness :
    asPrivToStringValues (asPrivFromStringValues (TFString.value "read") (TFString.value "aerospike") (TFString.value "test")) =
      (TFString.value "read", TFString.value "aerospike", TFString.value "test") :=
  asPriv_roundTrip "read" "aerospike" "test" (by decide) (by decide) (by decide)

theorem mem_sortStrings {x : String} {l : List String} : x ∈ sortStrings l ↔ x ∈ l := by
  simp [sortStrings]

theorem sortStrings_eq_of_perm {l₁ l₂ : List String} (h : l₁.Perm l₂) :
    sortStrings l₁ = sortStrings l₂ :=
  List.eq_of_perm_of_sorted
    ((List.mergeSort_perm _ _).trans (h.trans (List.mergeSort_perm _ _).symm))
    (List.sorted_mergeSort' _) (List.sorted_mergeSort' _)

/-- C3: when only the password differs (role lists literally equal), user
Update issues exactly one change-password call and no role grant/revoke call,
and the written state carries the new password with unchanged roles; when the
password is unchanged, no change-password call is issued. -/
theorem userUpdate_passwordChange :
    (∀ plan state : AerospikeUserModel, plan.Password ≠ state.Password →
      plan.Roles = state.Roles →
      (AerospikeUser.Update plan state).1 =
        [AdminCall.ChangePassword plan.User_name.valueString plan.Password.valueString] ∧
      (AerospikeUser.Update plan state).2.Password = plan.Password ∧
      (AerospikeUser.Update plan state).2.Roles = state.Roles) ∧
    (∀ plan state : AerospikeUserModel, plan.Password = state.Password →
      ∀ u p, AdminCall.ChangePassword u p ∉ (AerospikeUser.Update plan state).1) := by
  constructor
  · intro plan state hpw hroles
    simp [AerospikeUser.Update, hpw, hroles]
  · intro plan state hpw u p
    simp only [AerospikeUser.Update, hpw]
    split_ifs <;> simp_all

/-- Witness for `userUpdate_passwordChange` at the spec's scenario (user
testuser1, password testpass1 → testpass2, same roles). -/
theorem userUpdate_passwordChange_witness :
    (AerospikeUser.Update
      ⟨TFString.value "testuser1", TFString.value "testpass2", [TFString.value "role1"]⟩
      ⟨TFString.value "testuser1", TFString.value "testpass1", [TFString.value "role1"]⟩).1 =
      [AdminCall.ChangePassword "testuser1" "testpass2"] :=
  (userUpdate_passwordChange.1
    ⟨TFString.value "testuser1", TFString.value "testpass2", [TFString.value "role1"]⟩
    ⟨TFString.value "testuser1", TFString.value "testpass1", [TFString.value "role1"]⟩
    (by decide) rfl).1

theorem mem_userRolesToAdd (x : String) (p s : List String) :
    x ∈ differenceStrings (sortStrings p) (intersectStrings (sortStrings s) (sortStrings p)) ↔
      (x ∈ p ∧ x ∉ s) := by
  simp [differenceStrings, intersectStrings, List.mem_filter, mem_sortStrings]
  tauto

theorem mem_userRolesToRevoke (x : String) (p s : List String) :
    x ∈ differenceStrings (sortStrings s) (intersectStrings (sortStrings s) (sortStrings p)) ↔
      (x ∈ s ∧ x ∉ p) := by
  simp [differenceStrings, intersectStrings, List.mem_filter, mem_sortStrings]
  tauto

/-- C2: in user Update the granted roles are exactly plan − state and the
revoked roles exactly state − plan by membership, each call issued only with
a non-empty list and only when such an element exists; the diff is
order-independent, and a plan whose role list is a permutation of the state's
issues no grant or revoke call. -/
theorem userUpdate_setDiff (plan state : AerospikeUserModel) :
    (∀ u l, AdminCall.GrantRoles u l ∈ (AerospikeUser.Update plan state).1 →
      l ≠ [] ∧ ∀ x, x ∈ l ↔ (x ∈ plan.Roles.map TFString.valueString ∧
        x ∉ state.Roles.map TFString.valueString)) ∧
    (∀ u l, AdminCall.RevokeRoles u l ∈ (AerospikeUser.Update plan state).1 →
      l ≠ [] ∧ ∀ x, x ∈ l ↔ (x ∈ state.Roles.map TFString.valueString ∧
        x ∉ plan.Roles.map TFString.valueString)) ∧
    ((∃ x, x ∈ plan.Roles.map TFString.valueString ∧ x ∉ state.Roles.map TFString.valueString) →
      ∃ l, AdminCall.GrantRoles plan.User_name.valueString l ∈ (AerospikeUser.Update plan state).1) ∧
    ((∃ x, x ∈ state.Roles.map TFString.valueString ∧ x ∉ plan.Roles.map TFString.valueString) →
      ∃ l, AdminCall.RevokeRoles plan.User_name.valueString l ∈ (AerospikeUser.Update plan state).1) ∧
    ((plan.Roles.map TFString.valueString).Perm (state.Roles.map TFString.valueString) →
      ∀ u l, AdminCall.GrantRoles u l ∉ (AerospikeUser.Update plan state).1 ∧
             AdminCall.RevokeRoles u l ∉ (AerospikeUser.Update plan state).1) := by
  by_cases hs : sortStrings (plan.Roles.map TFString.valueString) =
      sortStrings (state.Roles.map TFString.valueString)
  · have hmem : ∀ x, x ∈ plan.Roles.map TFString.valueString ↔
        x ∈ state.Roles.map TFString.valueString := fun x => by
      rw [← mem_sortStrings, hs, mem_sortStrings]
    refine ⟨?_, ?_, ?_, ?_, ?_⟩
    · intro u l hm
      simp only [AerospikeUser.Update, hs] at hm
      split_ifs at hm <;> simp_all
    · intro u l hm
      simp only [AerospikeUser.Update, hs] at hm
      split_ifs at hm <;> simp_all
    · rintro ⟨x, hx1, hx2⟩; exact absurd ((hmem x).1 hx1) hx2
    · rintro ⟨x, hx1, hx2⟩; exact absurd ((hmem x).2 hx1) hx2
    · intro _ u l
      constructor <;>
        (intro hm; simp only [AerospikeUser.Update, hs] at hm; split_ifs at hm <;> simp_all)
  · refine ⟨?_, ?_, ?_, ?_, ?_⟩
    · intro u l hm
      simp only [AerospikeUser.Update] at hm
      rw [if_pos hs] at hm
      simp only [List.mem_append] at hm
      split_ifs at hm <;>
        simp_all [mem_userRolesToAdd, mem_userRolesToRevoke]
    · intro u l hm
      simp only [AerospikeUser.Update] at hm
      rw [if_pos hs] at hm
      simp only [List.mem_append] at hm
      split_ifs at hm <;>
        simp_all [mem_userRolesToAdd, mem_userRolesToRevoke]
    · rintro ⟨x, hx1, hx2⟩
      have hne : differenceStrings (sortStrings (plan.Roles.map TFString.valueString))
          (intersectStrings (sortStrings (state.Roles.map TFString.valueString))
            (sortStrings (plan.Roles.map TFString.valueString))) ≠ [] := by
        intro hnil
        have := (mem_userRolesToAdd x _ _).2 ⟨hx1, hx2⟩
        simp [hnil] at this
      refine ⟨differenceStrings (sortStrings (plan.Roles.map TFString.valueString))
          (intersectStrings (sortStrings (state.Roles.map TFString.valueString))
            (sortStrings (plan.Roles.map TFString.valueString))), ?_⟩
      simp only [AerospikeUser.Update]
      rw [if_pos hs]
      simp only [List.mem_append]
      right; left
      rw [if_pos hne]
      simp
    · rintro ⟨x, hx1, hx2⟩
      have hne : differenceStrings (sortStrings (state.Roles.map TFString.valueString))
          (intersectStrings (sortStrings (state.Roles.map TFString.valueString))
            (sortStrings (plan.Roles.map TFString.valueString))) ≠ [] := by
        intro hnil
        have := (mem_userRolesToRevoke x _ _).2 ⟨hx1, hx2⟩
        simp [hnil] at this
      refine ⟨differenceStrings (sortStrings (state.Roles.map TFString.valueString))
          (intersectStrings (sortStrings (state.Roles.map TFString.valueString))
            (sortStrings (plan.Roles.map TFString.valueString))), ?_⟩
      simp only [AerospikeUser.Update]
      rw [if_pos hs]
      simp only [List.mem_append]
      right; right
      rw [if_pos hne]
      simp
    · intro hperm
      exact absurd (sortStrings_eq_of_perm hperm) hs

/-- Witness for `userUpdate_setDiff`: updating the role list from [role1] to
[role2] issues a grant-roles call. -/
theorem userUpdate_setDiff_witness :
    ∃ l, AdminCall.GrantRoles "testuser1" l ∈
      (AerospikeUser.Update
        ⟨TFString.value "testuser1", TFString.value "p", [TFString.value "role2"]⟩
        ⟨TFString.value "testuser1", TFString.value "p", [TFString.value "role1"]⟩).1 :=
  (userUpdate_setDiff
    ⟨TFString.value "testuser1", TFString.value "p", [TFString.value "role2"]⟩
    ⟨TFString.value "testuser1", TFString.value "p", [TFString.value "role1"]⟩).2.2.1
    ⟨"role2", by decide, by decide⟩

theorem validatePlanPrivileges_ok (env : ClusterEnv) (l : List AerospikeRolePrivilegeModel)
    (hval : ∀ p ∈ l, p.Namespace.isNull = true ∨ env.nsExists p.Namespace.valueString = true) :
    validatePlanPrivileges env l =
      .ok (l.map (fun p => asPrivFromStringValues p.Privilege p.Namespace p.Set)) := by
  induction l with
  | nil => rfl
  | cons p rest ih =>
    have hrest := ih (fun q hq => hval q (List.mem_cons_of_mem _ hq))
    have hp := hval p (List.mem_cons_self p rest)
    rcases hp with h | h <;> simp [validatePlanPrivileges, h, hrest]

theorem validatePlanPrivileges_error (env : ClusterEnv) (l : List AerospikeRolePrivilegeModel)
    (hbad : ∃ p ∈ l, p.Namespace.isNull = false ∧ env.nsExists p.Namespace.valueString = false) :
    ∃ d, validatePlanPrivileges env l = .error d := by
  induction l with
  | nil => simp at hbad
  | cons p rest ih =>
    by_cases hp : (!p.Namespace.isNull && !env.nsExists p.Namespace.valueString) = true
    · refine ⟨⟨"Invalid namesace",
        "Namespace \"" ++ p.Namespace.valueString ++
          "\" does not exist in the cluster. Can't create role referencing it"⟩, ?_⟩
      simp [validatePlanPrivileges, hp]
    · have hrestbad : ∃ q ∈ rest, q.Namespace.isNull = false ∧
          env.nsExists q.Namespace.valueString = false := by
        rcases hbad with ⟨q, hq, hq1, hq2⟩
        rcases List.mem_cons.1 hq with rfl | hq'
        · simp [hq1, hq2] at hp
        · exact ⟨q, hq', hq1, hq2⟩
      rcases ih hrestbad with ⟨d, hd⟩
      refine ⟨d, ?_⟩
      simp [validatePlanPrivileges, hp, hd]

theorem roleUpdate_mem_calls (env : ClusterEnv) (plan state : AerospikeRoleModel) (c : AdminCall)
    (hval : ∀ p ∈ plan.Privileges,
      p.Namespace.isNull = true ∨ env.nsExists p.Namespace.valueString = true) :
    c ∈ (AerospikeRole.Update env plan state).calls ↔
      ((plan.Privileges ≠ state.Privileges ∧
          (asPrivilegesOfModel plan).filter (fun p => !((asPrivilegesOfModel state).contains p)) ≠ [] ∧
          c = AdminCall.GrantPrivileges plan.Role_name.valueString
            ((asPrivilegesOfModel plan).filter (fun p => !((asPrivilegesOfModel state).contains p)))) ∨
        (plan.Privileges ≠ state.Privileges ∧
          (asPrivilegesOfModel state).filter (fun p => !((asPrivilegesOfModel plan).contains p)) ≠ [] ∧
          c = AdminCall.RevokePrivileges plan.Role_name.valueString
            ((asPrivilegesOfModel state).filter (fun p => !((asPrivilegesOfModel plan).contains p)))) ∨
        (plan.White_list ≠ state.White_list ∧
          c = AdminCall.SetWhitelist plan.Role_name.valueString (plan.White_list.map TFString.valueString)) ∨
        ((plan.Read_quota ≠ state.Read_quota ∨ plan.Write_quota ≠ state.Write_quota) ∧
          c = AdminCall.SetQuotas plan.Role_name.valueString (uint32OfInt64 plan.Read_quota.valueInt64)
            (uint32OfInt64 plan.Write_quota.valueInt64))) := by
  simp only [asPrivilegesOfModel]
  by_cases hp : plan.Privileges = state.Privileges
  · simp only [AerospikeRole.Update, hp]
    simp only [eq_self_iff_true, if_true, ne_eq, not_true_eq_false, false_and, false_or]
    split_ifs <;> simp_all
  · simp only [AerospikeRole.Update, validatePlanPrivileges_ok env plan.Privileges hval,
      if_neg hp]
    generalize (plan.Privileges.map (fun p => asPrivFromStringValues p.Privilege p.Namespace p.Set)).filter
        (fun p => !((state.Privileges.map (fun p => asPrivFromStringValues p.Privilege p.Namespace p.Set)).contains p)) = A
    generalize (state.Privileges.map (fun p => asPrivFromStringValues p.Privilege p.Namespace p.Set)).filter
        (fun p => !((plan.Privileges.map (fun p => asPrivFromStringValues p.Privilege p.Namespace p.Set)).contains p)) = R
    generalize plan.White_list.map TFString.valueString = W
    generalize plan.Role_name.valueString = nm
    split_ifs <;> simp_all

/-- C1: in role Update, assuming every planned privilege's namespace
validates, the privileges granted are exactly plan − state and the privileges
revoked exactly state − plan by membership (over the converted (kind,
namespace, set) triples), each call carries a non-empty list and is issued
exactly when such an element exists, and no grant or revoke call is issued
when the two privilege sets are equal by membership. -/
theorem roleUpdate_privSetDiff (env : ClusterEnv) (plan state : AerospikeRoleModel)
    (hval : ∀ p ∈ plan.Privileges,
      p.Namespace.isNull = true ∨ env.nsExists p.Namespace.valueString = true) :
    (∀ r g, AdminCall.GrantPrivileges r g ∈ (AerospikeRole.Update env plan state).calls →
      g ≠ [] ∧ ∀ x, x ∈ g ↔
        (x ∈ asPrivilegesOfModel plan ∧ x ∉ asPrivilegesOfModel state)) ∧
    (∀ r g, AdminCall.RevokePrivileges r g ∈ (AerospikeRole.Update env plan state).calls →
      g ≠ [] ∧ ∀ x, x ∈ g ↔
        (x ∈ asPrivilegesOfModel state ∧ x ∉ asPrivilegesOfModel plan)) ∧
    ((∃ x, x ∈ asPrivilegesOfModel plan ∧ x ∉ asPrivilegesOfModel state) ↔
      (∃ g, AdminCall.GrantPrivileges plan.Role_name.valueString g ∈
        (AerospikeRole.Update env plan state).calls)) ∧
    ((∃ x, x ∈ asPrivilegesOfModel state ∧ x ∉ asPrivilegesOfModel plan) ↔
      (∃ g, AdminCall.RevokePrivileges plan.Role_name.valueString g ∈
        (AerospikeRole.Update env plan state).calls)) ∧
    ((∀ x, x ∈ asPrivilegesOfModel plan ↔ x ∈ asPrivilegesOfModel state) → ∀ r g,
      AdminCall.GrantPrivileges r g ∉ (AerospikeRole.Update env plan state).calls ∧
      AdminCall.RevokePrivileges r g ∉ (AerospikeRole.Update env plan state).calls) := by
  have memA : ∀ x, x ∈ (asPrivilegesOfModel plan).filter
      (fun p => !((asPrivilegesOfModel state).contains p)) ↔
      (x ∈ asPrivilegesOfModel plan ∧ x ∉ asPrivilegesOfModel state) := by
    intro x; simp [List.mem_filter]
  have memR : ∀ x, x ∈ (asPrivilegesOfModel state).filter
      (fun p => !((asPrivilegesOfModel plan).contains p)) ↔
      (x ∈ asPrivilegesOfModel state ∧ x ∉ asPrivilegesOfModel plan) := by
    intro x; simp [List.mem_filter]
  refine ⟨?_, ?_, ?_, ?_, ?_⟩
  · intro r g hm
    rw [roleUpdate_mem_calls env plan state _ hval] at hm
    rcases hm with ⟨_, hA, heq⟩ | ⟨_, _, heq⟩ | ⟨_, heq⟩ | ⟨_, heq⟩
    · injection heq with h1 h2
      subst h2
      exact ⟨hA, memA⟩
    · exact AdminCall.noConfusion heq
    · exact AdminCall.noConfusion heq
    · exact AdminCall.noConfusion heq
  · intro r g hm
    rw [roleUpdate_mem_calls env plan state _ hval] at hm
    rcases hm with ⟨_, _, heq⟩ | ⟨_, hR, heq⟩ | ⟨_, heq⟩ | ⟨_, heq⟩
    · exact AdminCall.noConfusion heq
    · injection heq with h1 h2
      subst h2
      exact ⟨hR, memR⟩
    · exact AdminCall.noConfusion heq
    · exact AdminCall.noConfusion heq
  · constructor
    · rintro ⟨x, hx2, hx1⟩
      have hne : plan.Privileges ≠ state.Privileges := by
        intro h
        rw [show asPrivilegesOfModel plan = asPrivilegesOfModel state by
          simp [asPrivilegesOfModel, h]] at hx2
        exact hx1 hx2
      have hAne : (asPrivilegesOfModel plan).filter
          (fun p => !((asPrivilegesOfModel state).contains p)) ≠ [] := by
        intro hnil
        have := (memA x).2 ⟨hx2, hx1⟩
        rw [hnil] at this
        simp at this
      refine ⟨(asPrivilegesOfModel plan).filter
          (fun p => !((asPrivilegesOfModel state).contains p)), ?_⟩
      rw [roleUpdate_mem_calls env plan state _ hval]
      exact Or.inl ⟨hne, hAne, rfl⟩
    · rintro ⟨g, hg⟩
      rw [roleUpdate_mem_calls env plan state _ hval] at hg
      rcases hg with ⟨_, hA, heq⟩ | ⟨_, _, heq⟩ | ⟨_, heq⟩ | ⟨_, heq⟩
      · rcases List.exists_mem_of_ne_nil _ hA with ⟨x, hx⟩
        exact ⟨x, (memA x).1 hx⟩
      · exact AdminCall.noConfusion heq
      · exact AdminCall.noConfusion heq
      · exact AdminCall.noConfusion heq
  · constructor
    · rintro ⟨x, hx1, hx2⟩
      have hne : plan.Privileges ≠ state.Privileges := by
        intro h
        rw [show asPrivilegesOfModel plan = asPrivilegesOfModel state by
          simp [asPrivilegesOfModel, h]] at hx2
        exact hx2 hx1
      have hRne : (asPrivilegesOfModel state).filter
          (fun p => !((asPrivilegesOfModel plan).contains p)) ≠ [] := by
        intro hnil
        have := (memR x).2 ⟨hx1, hx2⟩
        rw [hnil] at this
        simp at this
      refine ⟨(asPrivilegesOfModel state).filter
          (fun p => !((asPrivilegesOfModel plan).contains p)), ?_⟩
      rw [roleUpdate_mem_calls env plan state _ hval]
      exact Or.inr (Or.inl ⟨hne, hRne, rfl⟩)
    · rintro ⟨g, hg⟩
      rw [roleUpdate_mem_calls env plan state _ hval] at hg
      rcases hg with ⟨_, _, heq⟩ | ⟨_, hR, heq⟩ | ⟨_, heq⟩ | ⟨_, heq⟩
      · exact AdminCall.noConfusion heq
      · rcases List.exists_mem_of_ne_nil _ hR with ⟨x, hx⟩
        exact ⟨x, (memR x).1 hx⟩
      · exact AdminCall.noConfusion heq
      · exact AdminCall.noConfusion heq
  · intro hiff r g
    have hAnil : (asPrivilegesOfModel plan).filter
        (fun p => !((asPrivilegesOfModel state).contains p)) = [] := by
      rw [List.filter_eq_nil_iff]
      intro x hx
      simp [(hiff x).1 hx]
    have hRnil : (asPrivilegesOfModel state).filter
        (fun p => !((asPrivilegesOfModel plan).contains p)) = [] := by
      rw [List.filter_eq_nil_iff]
      intro x hx
      simp [(hiff x).2 hx]
    constructor
    · intro hm
      rw [roleUpdate_mem_calls env plan state _ hval] at hm
      rcases hm with ⟨_, hA, _⟩ | ⟨_, _, heq⟩ | ⟨_, heq⟩ | ⟨_, heq⟩
      · exact hA hAnil
      · exact AdminCall.noConfusion heq
      · exact AdminCall.noConfusion heq
      · exact AdminCall.noConfusion heq
    · intro hm
      rw [roleUpdate_mem_calls env plan state _ hval] at hm
      rcases hm with ⟨_, _, heq⟩ | ⟨_, hR, _⟩ | ⟨_, heq⟩ | ⟨_, heq⟩
      · exact AdminCall.noConfusion heq
      · exact hR hRnil
      · exact AdminCall.noConfusion heq
      · exact AdminCall.noConfusion heq

/-- Witness for `roleUpdate_privSetDiff`: adding a read privilege to an empty
prior set issues a grant-privileges call. -/
theorem roleUpdate_privSetDiff_witness :
    ∃ g, AdminCall.GrantPrivileges "role1" g ∈
      (AerospikeRole.Update ⟨fun _ => true, true⟩
        ⟨TFString.value "role1",
          [⟨TFString.value "read", TFString.value "aerospike", TFString.value "test"⟩],
          [], some 0, some 0⟩
        ⟨TFString.value "role1", [], [], some 0, some 0⟩).calls :=
  ((roleUpdate_privSetDiff ⟨fun _ => true, true⟩
    ⟨TFString.value "role1",
      [⟨TFString.value "read", TFString.value "aerospike", TFString.value "test"⟩],
      [], some 0, some 0⟩
    ⟨TFString.value "role1", [], [], some 0, some 0⟩ (by decide)).2.2.1).1
    ⟨⟨"read", "aerospike", "test"⟩, by decide, by decide⟩

/-- C10 (amended): in role Update, when the planned privilege set differs
from the prior one (so the diff branch runs) and some planned privilege
references a non-null namespace missing from the cluster, the operation
returns an error diagnostic and issues no grant-privileges,
revoke-privileges, set-whitelist or set-quotas call, leaving state unwritten.
When the privilege sets are `reflect.DeepEqual`, validation is skipped (see
the counterexample). -/
theorem roleUpdate_nsValidation (env : ClusterEnv) (plan state : AerospikeRoleModel)
    (hne : plan.Privileges ≠ state.Privileges)
    (hbad : ∃ p ∈ plan.Privileges, p.Namespace.isNull = false ∧
      env.nsExists p.Namespace.valueString = false) :
    (AerospikeRole.Update env plan state).calls = [] ∧
    (AerospikeRole.Update env plan state).diags.isSome = true ∧
    (AerospikeRole.Update env plan state).newData = none := by
  rcases validatePlanPrivileges_error env plan.Privileges hbad with ⟨d, hd⟩
  simp [AerospikeRole.Update, hne, hd]

/-- Witness for `roleUpdate_nsValidation`: a planned privilege naming a
missing namespace yields no calls. -/
theorem roleUpdate_nsValidation_witness :
    (AerospikeRole.Update ⟨fun _ => false, true⟩
      ⟨TFString.value "role1",
        [⟨TFString.value "read", TFString.value "nx", TFString.null⟩], [], some 0, some 0⟩
      ⟨TFString.value "role1", [], [], some 0, some 0⟩).calls = [] :=
  (roleUpdate_nsValidation ⟨fun _ => false, true⟩
    ⟨TFString.value "role1",
      [⟨TFString.value "read", TFString.value "nx", TFString.null⟩], [], some 0, some 0⟩
    ⟨TFString.value "role1", [], [], some 0, some 0⟩
    (by decide) ⟨⟨TFString.value "read", TFString.value "nx", TFString.null⟩, by decide, by decide, by decide⟩).1

/-- C10 counterexample: when the planned privilege set equals the prior one,
the namespace validation loop never runs, so an Update whose only change is
the whitelist issues a set-whitelist call and reports no diagnostic even
though every planned privilege references a namespace missing from the
cluster — refuting the claim as stated for general role Updates. -/
theorem roleUpdate_nsValidation_cex :
    (∃ p ∈ ([⟨TFString.value "read", TFString.value "nx", TFString.null⟩] :
        List AerospikeRolePrivilegeModel), p.Namespace.isNull = false ∧
        (fun (_ : String) => false) p.Namespace.valueString = false) ∧
    (AerospikeRole.Update ⟨fun _ => false, true⟩
      ⟨TFString.value "role1", [⟨TFString.value "read", TFString.value "nx", TFString.null⟩],
        [TFString.value "2.2.2.2"], some 0, some 0⟩
      ⟨TFString.value "role1", [⟨TFString.value "read", TFString.value "nx", TFString.null⟩],
        [TFString.value "1.1.1.1"], some 0, some 0⟩).diags = none ∧
    (AerospikeRole.Update ⟨fun _ => false, true⟩
      ⟨TFString.value "role1", [⟨TFString.value "read", TFString.value "nx", TFString.null⟩],
        [TFString.value "2.2.2.2"], some 0, some 0⟩
      ⟨TFString.value "role1", [⟨TFString.value "read", TFString.value "nx", TFString.null⟩],
        [TFString.value "1.1.1.1"], some 0, some 0⟩).calls =
      [AdminCall.SetWhitelist "role1" ["2.2.2.2"]] := by
  refine ⟨⟨⟨TFString.value "read", TFString.value "nx", TFString.null⟩, by decide, by decide, by decide⟩, ?_, ?_⟩ <;> rfl

/-- C4: a role or user whose query answers with the invalid-role /
invalid-user code reads as absent (state cleared / resource removed, no
error), Delete treats the same code as idempotent success, and any other
error code aborts (panics) the Read or Delete. -/
theorem readDelete_invalidIsAbsent (rdata : AerospikeRoleModel) (udata : AerospikeUserModel)
    (c : Nat) :
    (AerospikeRole.Read rdata (.error astypes.INVALID_ROLE) = .absent) ∧
    (AerospikeUser.Read udata (.error astypes.INVALID_USER) = .absent) ∧
    (c ≠ astypes.INVALID_ROLE → AerospikeRole.Read rdata (.error c) = .panicked c) ∧
    (c ≠ astypes.INVALID_USER → AerospikeUser.Read udata (.error c) = .panicked c) ∧
    (AerospikeRole.Delete (some astypes.INVALID_ROLE) = .success) ∧
    (AerospikeUser.Delete (some astypes.INVALID_USER) = .success) ∧
    (c ≠ astypes.INVALID_ROLE → AerospikeRole.Delete (some c) = .panicked c) ∧
    (c ≠ astypes.INVALID_USER → AerospikeUser.Delete (some c) = .panicked c) := by
  refine ⟨rfl, rfl, ?_, ?_, rfl, rfl, ?_, ?_⟩ <;>
    (intro h; simp [AerospikeRole.Read, AerospikeUser.Read,
      AerospikeRole.Delete, AerospikeUser.Delete, h])

/-- Witness for `readDelete_invalidIsAbsent`: an unexpected error code (1) on
role Read panics. -/
theorem readDelete_invalidIsAbsent_witness :
    AerospikeRole.Read ⟨TFString.value "role1", [], [], some 0, some 0⟩ (.error 1) =
      ReadOutcome.panicked 1 :=
  (readDelete_invalidIsAbsent ⟨TFString.value "role1", [], [], some 0, some 0⟩
    ⟨TFString.value "u", TFString.value "p", []⟩ 1).2.2.1 (by decide)

/-- C5 counterexample: user Create answers an already-existing user with the
same generic panic as any other failure — no distinct user-visible
diagnostic, refuting the claim as stated for users. -/
theorem userCreate_alreadyExists_cex :
    (AerospikeUser.Create ⟨TFString.value "testuser1", TFString.value "p", []⟩
      (some astypes.USER_ALREADY_EXISTS)).2 = CreateOutcome.panicked astypes.USER_ALREADY_EXISTS ∧
    (AerospikeUser.Create ⟨TFString.value "testuser1", TFString.value "p", []⟩
      (some 1)).2 = CreateOutcome.panicked 1 :=
  ⟨rfl, rfl⟩

/-- C5 (amended): role Create surfaces a distinct "Role already exists"
diagnostic for `ROLE_ALREADY_EXISTS` while any other unexpected error panics;
user Create treats every server error, the already-exists code included, as
the same generic panic. -/
theorem roleCreate_alreadyExists_distinct (env : ClusterEnv)
    (rdata : AerospikeRoleModel) (udata : AerospikeUserModel)
    (hval : ∀ p ∈ rdata.Privileges,
      p.Namespace.isNull = true ∨ env.nsExists p.Namespace.valueString = true) :
    (AerospikeRole.Create env rdata (some astypes.ROLE_ALREADY_EXISTS)).2 =
      CreateOutcome.diag "Role already exists"
        ("Role that was being created already exists: " ++ rdata.Role_name.valueString) ∧
    (∀ c, c ≠ astypes.ROLE_ALREADY_EXISTS → c ≠ astypes.QUOTAS_NOT_ENABLED →
      (AerospikeRole.Create env rdata (some c)).2 = CreateOutcome.panicked c) ∧
    (∀ c, (AerospikeUser.Create udata (some c)).2 = CreateOutcome.panicked c) := by
  refine ⟨?_, ?_, fun c => rfl⟩
  · simp [AerospikeRole.Create, validatePlanPrivileges_ok env rdata.Privileges hval,
      astypes.ROLE_ALREADY_EXISTS, astypes.QUOTAS_NOT_ENABLED]
  · intro c h1 h2
    simp [AerospikeRole.Create, validatePlanPrivileges_ok env rdata.Privileges hval, h1, h2]

/-- Witness for `roleCreate_alreadyExists_distinct` at role1. -/
theorem roleCreate_alreadyExists_distinct_witness :
    (AerospikeRole.Create ⟨fun _ => true, true⟩
      ⟨TFString.value "role1", [], [], some 0, some 0⟩
      (some astypes.ROLE_ALREADY_EXISTS)).2 =
      CreateOutcome.diag "Role already exists"
        ("Role that was being created already exists: " ++ "role1") :=
  (roleCreate_alreadyExists_distinct ⟨fun _ => true, true⟩
    ⟨TFString.value "role1", [], [], some 0, some 0⟩
    ⟨TFString.value "u", TFString.value "p", []⟩ (by decide)).1

theorem sendInfoCommand_scan_clean (entries : List (String × String)) (e0 : Option String)
    (hclean : ∀ p ∈ entries, strContains p.2 "ERROR" = false) :
    (sendInfoCommand entries e0).2 = e0 := by
  induction entries generalizing e0 with
  | nil => rfl
  | cons p rest ih =>
    have hp := hclean p (List.mem_cons_self p rest)
    have hrest := fun q hq => hclean q (List.mem_cons_of_mem _ hq)
    simpa [sendInfoCommand, hp] using ih e0 hrest

theorem sendInfoCommand_scan_dirty (entries : List (String × String)) (e0 : Option String)
    (hdirty : ∃ p ∈ entries, strContains p.2 "ERROR" = true) :
    ∃ p ∈ entries, strContains p.2 "ERROR" = true ∧
      (sendInfoCommand entries e0).2 =
        some ("Error in request: " ++ p.1 ++ " error was: " ++ p.2) := by
  induction entries generalizing e0 with
  | nil => simp at hdirty
  | cons p rest ih =>
    by_cases hrest : ∃ q ∈ rest, strContains q.2 "ERROR" = true
    · rcases ih _ hrest with ⟨q, hq, hqe, hres⟩
      refine ⟨q, List.mem_cons_of_mem _ hq, hqe, ?_⟩
      simpa [sendInfoCommand] using hres
    · have hcleanRest : ∀ q ∈ rest, strContains q.2 "ERROR" = false := by
        intro q hq
        by_contra hne
        exact hrest ⟨q, hq, by simpa using hne⟩
      have hp : strContains p.2 "ERROR" = true := by
        rcases hdirty with ⟨q, hq, hqe⟩
        rcases List.mem_cons.1 hq with rfl | hq'
        · exact hqe
        · exact absurd hqe (by simp [hcleanRest q hq'])
      refine ⟨p, List.mem_cons_self p rest, hp, ?_⟩
      have := sendInfoCommand_scan_clean rest
        (some ("Error in request: " ++ p.1 ++ " error was: " ++ p.2)) hcleanRest
      simpa [sendInfoCommand, hp] using this

/-- C6: whenever some value in the info-command response map contains the
literal substring "ERROR", `sendInfoCommand` returns an error naming an
offending sub-command and its response value; when no value contains the
marker and the underlying request succeeded, the parsed map is returned with
no error. -/
theorem sendInfoCommand_errorMarker (entries : List (String × String)) (reqErr : Option String) :
    ((∃ p ∈ entries, strContains p.2 "ERROR" = true) →
      ∃ p ∈ entries, strContains p.2 "ERROR" = true ∧
        (sendInfoCommand entries reqErr).2 =
          some ("Error in request: " ++ p.1 ++ " error was: " ++ p.2)) ∧
    ((∀ p ∈ entries, strContains p.2 "ERROR" = false) →
      sendInfoCommand entries none = (entries, none)) := by
  refine ⟨fun h => sendInfoCommand_scan_dirty entries reqErr h, fun h => ?_⟩
  have := sendInfoCommand_scan_clean entries none h
  simp only [sendInfoCommand] at this ⊢
  rw [this]

/-- Witness for `sendInfoCommand_errorMarker` at a one-entry response whose
value carries the ERROR marker. -/
theorem sendInfoCommand_errorMarker_witness :
    ∃ p ∈ [("sets", "ERROR: bad command")], strContains p.2 "ERROR" = true ∧
      (sendInfoCommand [("sets", "ERROR: bad command")] none).2 =
        some ("Error in request: " ++ p.1 ++ " error was: " ++ p.2) :=
  (sendInfoCommand_errorMarker [("sets", "ERROR: bad command")] none).1
    ⟨("sets", "ERROR: bad command"), by decide, by decide⟩

/-- C7 counterexample: for build "10.0.0" the capability probe parses only
the first character (major version 1, not 10), so set-level TTL is reported
unsupported — refuting the claim that all leading digits are parsed. -/
theorem supportsCapability_cex :
    supportsCapability ([("build", "10.0.0")], none) SetLevelTTL = CapOutcome.result false := by
  decide

/-- C7 (amended): the capability probe parses only the first character of the
build string as the server's major version and, for set-level TTL, returns
true exactly when that single-digit version is at least 7; a build string
with a multi-digit major version is truncated to its first digit. -/
theorem supportsCapability_firstChar (entries : List (String × String)) (s : String)
    (c : Char) (rest : List Char) (d : Nat)
    (hfind : ((entries.find? (fun p => p.1 == "build")).map Prod.snd).getD "" = s)
    (hs : s.toList = c :: rest) (hd : charDigit? c = some d) :
    supportsCapability (entries, none) SetLevelTTL = CapOutcome.result (decide (d ≥ 7)) := by
  simp only [supportsCapability, hfind, hs, hd, SetLevelTTL, if_pos rfl]
  simp

/-- Witness for `supportsCapability_firstChar` at build "7.2.0.1". -/
theorem supportsCapability_firstChar_witness :
    supportsCapability ([("build", "7.2.0.1")], none) SetLevelTTL =
      CapOutcome.result (decide (7 ≥ 7)) :=
  supportsCapability_firstChar [("build", "7.2.0.1")] "7.2.0.1" '7' ".2.0.1".toList 7
    (by decide) (by decide) (by decide)

/-- C8: in the observed revision of `AerospikeNamespaceConfig.Create`, for
any declared non-null default_set_ttl mapping the TTL loop ranges over an
auxiliary map that is empty at the point of iteration, so no set-config
default-ttl info command is ever issued. -/
theorem namespaceConfigCreate_ttlLoopNeverRuns (data : AerospikeNamespaceConfigModel)
    (m : List (String × String)) (hm : data.Default_set_ttl = some m) :
    AerospikeNamespaceConfig.Create data = [] := by
  simp [AerospikeNamespaceConfig.Create, hm]

/-- Witness for `namespaceConfigCreate_ttlLoopNeverRuns` at the documented
example mapping (set1 → 100, set2 → 10M). -/
theorem namespaceConfigCreate_ttlLoopNeverRuns_witness :
    AerospikeNamespaceConfig.Create
      ⟨TFString.value "aerospike", some [("set1", "100"), ("set2", "10M")], [], [], none⟩ = [] :=
  namespaceConfigCreate_ttlLoopNeverRuns
    ⟨TFString.value "aerospike", some [("set1", "100"), ("set2", "10M")], [], [], none⟩
    [("set1", "100"), ("set2", "10M")] rfl
